import Mathlib

/-!
Verification of the csvtui core editing model (src/csv_structs.rs).

The Rust source is shallowly embedded below.  Conventions:

- Rust `usize` is modelled as `Nat`; arithmetic that can overflow or
  underflow in Rust is made explicit with `wAdd` and `wSub`, which reduce
  modulo `USIZE = 2 ^ 64` exactly as release-mode Rust wrapping arithmetic
  does (debug builds would panic at the same sites, which only makes the
  refuted claims fail earlier).
- Operations that can panic in Rust (`Vec` indexing out of range,
  `Vec::insert` past the end, `Vec::remove` out of range, a failed
  `unwrap`) are modelled as `Option`-returning functions where `none`
  marks the panic.
- The file write performed by `save_changes_to_file` is an external
  effect; it is modelled by an explicit trace field `writes` appended at
  the point of the write, recording the target path and the record
  sequence handed to the CSV writer.  The current date used by
  `paste_date` and the success of the quit-time write are inputs of the
  dispatch function.
-/

/-- Modulus of the 64-bit `usize` arithmetic, 2 ^ 64. -/
def USIZE : Nat := 18446744073709551616

/-- Wrapping `usize` addition (release-mode Rust semantics). -/
def wAdd (a b : Nat) : Nat := (a + b) % USIZE

/-- Wrapping `usize` subtraction (release-mode Rust semantics); both
arguments are values of `usize`, hence below `USIZE`. -/
def wSub (a b : Nat) : Nat := (a + USIZE - b) % USIZE

/-- Rust `Vec::insert`: panics (here `none`) when the index exceeds the
length. -/
def insertChecked (i : Nat) (a : α) (l : List α) : Option (List α) :=
  if i ≤ l.length then some (l.insertIdx i a) else none

/-- Rust `Vec::remove`: panics (here `none`) when the index is out of
range. -/
def removeChecked (i : Nat) (l : List α) : Option (List α) :=
  if i < l.length then some (l.eraseIdx i) else none

/-- Read `grid[r][c]`, `none` on an out-of-range index (a Rust panic). -/
def getCell (g : List (List String)) (r c : Nat) : Option String :=
  (g[r]?).bind fun row => row[c]?

/-- Write `grid[r][c] = v`, `none` on an out-of-range index (a Rust
panic). -/
def setCell (g : List (List String)) (r c : Nat) (v : String) :
    Option (List (List String)) :=
  (g[r]?).bind fun row =>
    if c < row.length then some (g.set r (row.set c v)) else none

/-- Apply `f` to the string at `grid[r][c]`, `none` on an out-of-range
index (a Rust panic). -/
def modifyCell (g : List (List String)) (r c : Nat) (f : String → String) :
    Option (List (List String)) :=
  (g[r]?).bind fun row =>
    (row[c]?).map fun s => g.set r (row.set c (f s))

/-- The `AppState` enum of the source: the mode together with its cursor
coordinates. -/
inductive AppState where
  | Navigating (row col : Nat)
  | Editing (row col : Nat)
  | EditingHeader (col : Nat)
deriving DecidableEq, Repr

/-- The `CSVModel` struct of the source.  The extra final field `writes`
is the trace of file writes (path and record sequence), modelling the
external file system effect of `save_changes_to_file`. -/
structure CSVModel where
  file_path : String
  headers : List String
  grid : List (List String)
  state : AppState
  running : Bool
  working_states : List (List String × List (List String))
  copy_buffer : Option String
  writes : List (String × List (List String))
deriving DecidableEq, Repr

namespace CSVModel

/-- CSVModel::get_current_row_and_col. -/
def get_current_row_and_col (m : CSVModel) : Nat × Nat :=
  match m.state with
  | .Navigating row col => (row, col)
  | .Editing row col => (row, col)
  | .EditingHeader col => (0, col)

/-- CSVModel::save_current_state: push a snapshot of the current document
onto the undo stack. -/
def save_current_state (m : CSVModel) : CSVModel :=
  { m with working_states := (m.headers, m.grid) :: m.working_states }

/-- CSVModel::restore_last_state: pop the latest snapshot, replace the
document with it, and clamp the cursor when the restored grid is shorter
than the cursor row.  The clamp computes `grid.len() - 1` in `usize`. -/
def restore_last_state (m : CSVModel) : CSVModel :=
  match m.working_states with
  | [] => m
  | (last_headers, last_grid) :: rest =>
    let m1 : CSVModel :=
      { m with headers := last_headers, grid := last_grid,
               working_states := rest }
    if m1.grid.length ≤ (get_current_row_and_col m1).1 then
      { m1 with state := .Navigating (wSub m1.grid.length 1) 0 }
    else m1

/-- CSVModel::insert_empty_row_after. -/
def insert_empty_row_after (row : Nat) (m : CSVModel) : Option CSVModel :=
  let m1 := save_current_state m
  (insertChecked (wAdd row 1) (List.replicate m1.headers.length "") m1.grid).map
    fun g => { m1 with grid := g }

/-- CSVModel::insert_empty_row_before. -/
def insert_empty_row_before (row : Nat) (m : CSVModel) : Option CSVModel :=
  let m1 := save_current_state m
  (insertChecked row (List.replicate m1.headers.length "") m1.grid).map
    fun g => { m1 with grid := g }

/-- CSVModel::delete_row. -/
def delete_row (row : Nat) (m : CSVModel) : Option CSVModel :=
  let m1 := save_current_state m
  (removeChecked row m1.grid).map fun g => { m1 with grid := g }

/-- CSVModel::insert_empty_col_after: insert at `col + 1` in the headers
and in every row. -/
def insert_empty_col_after (col : Nat) (m : CSVModel) : Option CSVModel :=
  let m1 := save_current_state m
  (insertChecked (wAdd col 1) "" m1.headers).bind fun hs =>
    (m1.grid.mapM (insertChecked (wAdd col 1) "")).map fun g =>
      { m1 with headers := hs, grid := g }

/-- CSVModel::insert_empty_col_before: insert at `col` in the headers and
in every row. -/
def insert_empty_col_before (col : Nat) (m : CSVModel) : Option CSVModel :=
  let m1 := save_current_state m
  (insertChecked col "" m1.headers).bind fun hs =>
    (m1.grid.mapM (insertChecked col "")).map fun g =>
      { m1 with headers := hs, grid := g }

/-- CSVModel::delete_col: remove index `col` from the headers and from
every row. -/
def delete_col (col : Nat) (m : CSVModel) : Option CSVModel :=
  let m1 := save_current_state m
  (removeChecked col m1.headers).bind fun hs =>
    (m1.grid.mapM (removeChecked col)).map fun g =>
      { m1 with headers := hs, grid := g }

/-- CSVModel::copy_selected_cell_to_buffer. -/
def copy_selected_cell_to_buffer (m : CSVModel) : Option CSVModel :=
  match m.state with
  | .Navigating row col =>
    (getCell m.grid row col).map fun v => { m with copy_buffer := some v }
  | _ => some m

/-- CSVModel::paste_from_buffer. -/
def paste_from_buffer (m : CSVModel) : Option CSVModel :=
  match m.state with
  | .Navigating row col =>
    match m.copy_buffer with
    | some buffer => (setCell m.grid row col buffer).map fun g => { m with grid := g }
    | none => some m
  | _ => some m

/-- CSVModel::paste_date: overwrite the current cell with the formatted
current date `today`. -/
def paste_date (today : String) (m : CSVModel) : Option CSVModel :=
  match m.state with
  | .Navigating row col =>
    (setCell m.grid row col today).map fun g => { m with grid := g }
  | _ => some m

/-- CSVModel::save_changes_to_file: the record sequence handed to the CSV
writer, the header row first and then every grid row. -/
def save_changes_to_file (m : CSVModel) : List (List String) :=
  m.headers :: m.grid

end CSVModel

/-- The logical key symbols relevant to the dispatch: a character key, the
confirm key, backspace, and a stand-in for every other KeyCode variant. -/
inductive Key where
  | char (c : Char)
  | enter
  | backspace
  | other
deriving DecidableEq, Repr

open CSVModel in
/-- The `AppState::Navigating` arm of CSVModel::handle_keyboard_input for
character keys, one branch per source match arm.  `today` feeds
paste_date, `saveOk` is the outcome of the quit-time file write (its
failed `unwrap` is the `none`). -/
def navChar (today : String) (saveOk : Bool) (r c : Nat) (ch : Char)
    (m : CSVModel) : Option CSVModel :=
  if ch = 'j' then
    some (if r < wSub m.grid.length 1 then
      { m with state := .Navigating (wAdd r 1) c } else m)
  else if ch = 'k' then
    some (if 0 < r then { m with state := .Navigating (r - 1) c } else m)
  else if ch = 'h' then
    some (if 0 < c then { m with state := .Navigating r (c - 1) } else m)
  else if ch = 'l' then
    (m.grid[r]?).map fun row =>
      if c < wSub row.length 1 then
        { m with state := .Navigating r (wAdd c 1) } else m
  else if ch = '}' then
    some { m with state := .Navigating (min (wSub m.grid.length 1) (wAdd r 5)) c }
  else if ch = '{' then
    some (if 5 ≤ r then { m with state := .Navigating (r - 5) c }
      else { m with state := .Navigating 0 c })
  else if ch = 'g' then
    some { m with state := .Navigating 0 c }
  else if ch = 'G' then
    some { m with state := .Navigating (wSub m.grid.length 1) c }
  else if ch = 'I' then
    some { m with state := .Navigating r 0 }
  else if ch = 'A' then
    some { m with state := .Navigating r (wSub m.headers.length 1) }
  else if ch = 'u' then
    some (restore_last_state m)
  else if ch = 'o' then
    (insert_empty_row_after r m).map fun m1 =>
      { m1 with state := .Navigating (wAdd r 1) c }
  else if ch = 'O' then
    (insert_empty_row_before r m).map fun m1 =>
      { m1 with state := .Navigating r c }
  else if ch = 'd' then
    (delete_row r m).map fun m1 =>
      if r = m1.grid.length then { m1 with state := .Navigating (wSub r 1) c }
      else { m1 with state := .Navigating r c }
  else if ch = 'n' then
    (insert_empty_col_after c m).map fun m1 =>
      { m1 with state := .Navigating r (wAdd c 1) }
  else if ch = 'N' then
    (insert_empty_col_before c m).map fun m1 =>
      { m1 with state := .Navigating r c }
  else if ch = 'D' then
    (delete_col c m).map fun m1 =>
      if c = m1.grid.length then { m1 with state := .Navigating r (wSub c 1) }
      else { m1 with state := .Navigating r c }
  else if ch = 'i' then
    some { save_current_state m with state := .Editing r c }
  else if ch = 'r' then
    (setCell m.grid r c "").map fun g =>
      { m with grid := g, state := .Editing r c }
  else if ch = 'H' then
    some { save_current_state m with state := .EditingHeader c }
  else if ch = 'y' then
    copy_selected_cell_to_buffer m
  else if ch = 'p' then
    paste_from_buffer (save_current_state m)
  else if ch = '.' then
    paste_date today m
  else if ch = 'q' then
    if saveOk then
      some { m with running := false,
                    writes := m.writes ++ [(m.file_path, save_changes_to_file m)] }
    else none
  else some m

open CSVModel in
/-- The `AppState::Editing` arm of CSVModel::handle_keyboard_input. -/
def editStep (r c : Nat) (key : Key) (m : CSVModel) : Option CSVModel :=
  match key with
  | .enter => some { m with state := .Navigating r c }
  | .backspace =>
    (modifyCell m.grid r c (fun s => s.dropRight 1)).map fun g =>
      { m with grid := g }
  | .char ch =>
    (modifyCell m.grid r c (fun s => s.push ch)).map fun g =>
      { m with grid := g }
  | .other => some m

open CSVModel in
/-- The `AppState::EditingHeader` arm of CSVModel::handle_keyboard_input. -/
def headerStep (c : Nat) (key : Key) (m : CSVModel) : Option CSVModel :=
  match key with
  | .enter => some { m with state := .Navigating 0 c }
  | .backspace =>
    (m.headers[c]?).map fun s =>
      { m with headers := m.headers.set c (s.dropRight 1) }
  | .char ch =>
    (m.headers[c]?).map fun s =>
      { m with headers := m.headers.set c (s.push ch) }
  | .other => some m

open CSVModel in
/-- CSVModel::handle_keyboard_input: one key dispatch.  `none` marks a
Rust panic (out-of-range indexing, or the failed `unwrap` of the save). -/
def handle_keyboard_input (today : String) (saveOk : Bool) (key : Key)
    (m : CSVModel) : Option CSVModel :=
  match m.state with
  | .Navigating r c =>
    match key with
    | .char ch => navChar today saveOk r c ch m
    | .enter => some { save_current_state m with state := .Editing r c }
    | _ => some m
  | .Editing r c => editStep r c key m
  | .EditingHeader c => headerStep c key m

/-- Run a list of keys through the dispatch, stopping at a panic. -/
def runKeys (today : String) (saveOk : Bool) (ks : List Key) (m : CSVModel) :
    Option CSVModel :=
  match ks with
  | [] => some m
  | k :: rest => (handle_keyboard_input today saveOk k m).bind (runKeys today saveOk rest)

/-- Issue the undo key `n` times. -/
def runUndos (today : String) (saveOk : Bool) (n : Nat) (m : CSVModel) :
    Option CSVModel :=
  match n with
  | 0 => some m
  | n + 1 =>
    (handle_keyboard_input today saveOk (.char 'u') m).bind
      (runUndos today saveOk n)

/-- Keystrokes available inside an edit session: a printable character or
backspace. -/
inductive EditKey where
  | ch (c : Char)
  | backspace
deriving DecidableEq, Repr

/-- The key symbol sent for an edit keystroke. -/
def EditKey.toKey : EditKey → Key
  | .ch c => .char c
  | .backspace => .backspace

/-- The mutating operations named by the specification, as the key
sequences that drive them: row and column insert and delete, an edit
session entered with the insert-style key and ended with confirm, a
replace-style edit session, a header edit session, paste, and
paste-date. -/
inductive MutOp where
  | insertRowAfter
  | insertRowBefore
  | deleteRow
  | insertColAfter
  | insertColBefore
  | deleteCol
  | editCell (ks : List EditKey)
  | replaceCell (ks : List EditKey)
  | editHeader (ks : List EditKey)
  | paste
  | pasteDate
deriving DecidableEq, Repr

/-- The key sequence of one mutating operation. -/
def opKeys : MutOp → List Key
  | .insertRowAfter => [.char 'o']
  | .insertRowBefore => [.char 'O']
  | .deleteRow => [.char 'd']
  | .insertColAfter => [.char 'n']
  | .insertColBefore => [.char 'N']
  | .deleteCol => [.char 'D']
  | .editCell ks => .char 'i' :: (ks.map EditKey.toKey ++ [.enter])
  | .replaceCell ks => .char 'r' :: (ks.map EditKey.toKey ++ [.enter])
  | .editHeader ks => .char 'H' :: (ks.map EditKey.toKey ++ [.enter])
  | .paste => [.char 'p']
  | .pasteDate => [.char '.']

/-- Run a list of mutating operations, stopping at a panic. -/
def runOps (d : String) (sk : Bool) : List MutOp → CSVModel → Option CSVModel
  | [], m => some m
  | op :: ops, m => (runKeys d sk (opKeys op) m).bind (runOps d sk ops)

/-- The operations that push a snapshot before mutating; replace-style
edits and paste-date do not. -/
def safeOp : MutOp → Bool
  | .replaceCell _ => false
  | .pasteDate => false
  | _ => true

/-- One column-structural operation, at an explicit index. -/
inductive ColOp where
  | insertAfter (i : Nat)
  | insertBefore (i : Nat)
  | delete (i : Nat)
deriving DecidableEq, Repr

/-- Apply one column operation through the corresponding CSVModel
method. -/
def applyColOp : ColOp → CSVModel → Option CSVModel
  | .insertAfter i, m => CSVModel.insert_empty_col_after i m
  | .insertBefore i, m => CSVModel.insert_empty_col_before i m
  | .delete i, m => CSVModel.delete_col i m

/-- Apply a sequence of column operations, stopping at a panic. -/
def applyColOps : List ColOp → CSVModel → Option CSVModel
  | [], m => some m
  | op :: ops, m => (applyColOp op m).bind (applyColOps ops)

/-- Uniform-width check: every grid row is exactly as long as the header
row. -/
def uniformB (m : CSVModel) : Bool :=
  m.grid.all (fun row => row.length == m.headers.length)

/-- Cursor bounds, as the specification states them: the row index is
below the row count (except on a zero-row grid) and the column index is
below the header length. -/
def cursorInBounds (m : CSVModel) : Prop :=
  match m.state with
  | .Navigating r c => (m.grid = [] ∨ r < m.grid.length) ∧ c < m.headers.length
  | .Editing r c => r < m.grid.length ∧ c < m.headers.length
  | .EditingHeader c => c < m.headers.length

instance (m : CSVModel) : Decidable (cursorInBounds m) := by
  unfold cursorInBounds
  split <;> exact inferInstance

/-! Helper lemmas: reducing the dispatch to the per-mode arms, one
equation per character key, and facts about the wrapping arithmetic. -/

theorem set_state_self (m : CSVModel) (s : AppState) (h : m.state = s) :
    { m with state := s } = m := by
  cases m
  cases h
  rfl

theorem handle_nav_char (d : String) (sk : Bool) (r c : Nat) (ch : Char)
    (m : CSVModel) (hs : m.state = .Navigating r c) :
    handle_keyboard_input d sk (.char ch) m = navChar d sk r c ch m := by
  obtain ⟨fp, hd, gr, st, run, ws, cb, wr⟩ := m
  cases hs
  rfl

theorem handle_nav_enter (d : String) (sk : Bool) (r c : Nat)
    (m : CSVModel) (hs : m.state = .Navigating r c) :
    handle_keyboard_input d sk .enter m =
      some { CSVModel.save_current_state m with state := .Editing r c } := by
  obtain ⟨fp, hd, gr, st, run, ws, cb, wr⟩ := m
  cases hs
  rfl

theorem handle_edit_eq (d : String) (sk : Bool) (r c : Nat) (key : Key)
    (m : CSVModel) (hs : m.state = .Editing r c) :
    handle_keyboard_input d sk key m = editStep r c key m := by
  obtain ⟨fp, hd, gr, st, run, ws, cb, wr⟩ := m
  cases hs
  cases key <;> rfl

theorem handle_header_eq (d : String) (sk : Bool) (c : Nat) (key : Key)
    (m : CSVModel) (hs : m.state = .EditingHeader c) :
    handle_keyboard_input d sk key m = headerStep c key m := by
  obtain ⟨fp, hd, gr, st, run, ws, cb, wr⟩ := m
  cases hs
  cases key <;> rfl

theorem navChar_j (d : String) (sk : Bool) (r c : Nat) (m : CSVModel) :
    navChar d sk r c 'j' m =
      some (if r < wSub m.grid.length 1 then
        { m with state := .Navigating (wAdd r 1) c } else m) := rfl

theorem navChar_k (d : String) (sk : Bool) (r c : Nat) (m : CSVModel) :
    navChar d sk r c 'k' m =
      some (if 0 < r then { m with state := .Navigating (r - 1) c } else m) := rfl

theorem navChar_h (d : String) (sk : Bool) (r c : Nat) (m : CSVModel) :
    navChar d sk r c 'h' m =
      some (if 0 < c then { m with state := .Navigating r (c - 1) } else m) := rfl

theorem navChar_l (d : String) (sk : Bool) (r c : Nat) (m : CSVModel) :
    navChar d sk r c 'l' m =
      (m.grid[r]?).map fun row =>
        if c < wSub row.length 1 then
          { m with state := .Navigating r (wAdd c 1) } else m := rfl

theorem navChar_pgdn (d : String) (sk : Bool) (r c : Nat) (m : CSVModel) :
    navChar d sk r c '}' m =
      some { m with
        state := .Navigating (min (wSub m.grid.length 1) (wAdd r 5)) c } := rfl

theorem navChar_pgup (d : String) (sk : Bool) (r c : Nat) (m : CSVModel) :
    navChar d sk r c '{' m =
      some (if 5 ≤ r then { m with state := .Navigating (r - 5) c }
        else { m with state := .Navigating 0 c }) := rfl

theorem navChar_g (d : String) (sk : Bool) (r c : Nat) (m : CSVModel) :
    navChar d sk r c 'g' m = some { m with state := .Navigating 0 c } := rfl

theorem navChar_G (d : String) (sk : Bool) (r c : Nat) (m : CSVModel) :
    navChar d sk r c 'G' m =
      some { m with state := .Navigating (wSub m.grid.length 1) c } := rfl

theorem navChar_I (d : String) (sk : Bool) (r c : Nat) (m : CSVModel) :
    navChar d sk r c 'I' m = some { m with state := .Navigating r 0 } := rfl

theorem navChar_A (d : String) (sk : Bool) (r c : Nat) (m : CSVModel) :
    navChar d sk r c 'A' m =
      some { m with state := .Navigating r (wSub m.headers.length 1) } := rfl

theorem navChar_u (d : String) (sk : Bool) (r c : Nat) (m : CSVModel) :
    navChar d sk r c 'u' m = some (CSVModel.restore_last_state m) := rfl

theorem navChar_o (d : String) (sk : Bool) (r c : Nat) (m : CSVModel) :
    navChar d sk r c 'o' m =
      (CSVModel.insert_empty_row_after r m).map fun m1 =>
        { m1 with state := .Navigating (wAdd r 1) c } := rfl

theorem navChar_O (d : String) (sk : Bool) (r c : Nat) (m : CSVModel) :
    navChar d sk r c 'O' m =
      (CSVModel.insert_empty_row_before r m).map fun m1 =>
        { m1 with state := .Navigating r c } := rfl

theorem navChar_d (d : String) (sk : Bool) (r c : Nat) (m : CSVModel) :
    navChar d sk r c 'd' m =
      (CSVModel.delete_row r m).map fun m1 =>
        if r = m1.grid.length then { m1 with state := .Navigating (wSub r 1) c }
        else { m1 with state := .Navigating r c } := rfl

theorem navChar_n (d : String) (sk : Bool) (r c : Nat) (m : CSVModel) :
    navChar d sk r c 'n' m =
      (CSVModel.insert_empty_col_after c m).map fun m1 =>
        { m1 with state := .Navigating r (wAdd c 1) } := rfl

theorem navChar_N (d : String) (sk : Bool) (r c : Nat) (m : CSVModel) :
    navChar d sk r c 'N' m =
      (CSVModel.insert_empty_col_before c m).map fun m1 =>
        { m1 with state := .Navigating r c } := rfl

theorem navChar_D (d : String) (sk : Bool) (r c : Nat) (m : CSVModel) :
    navChar d sk r c 'D' m =
      (CSVModel.delete_col c m).map fun m1 =>
        if c = m1.grid.length then { m1 with state := .Navigating r (wSub c 1) }
        else { m1 with state := .Navigating r c } := rfl

theorem navChar_i (d : String) (sk : Bool) (r c : Nat) (m : CSVModel) :
    navChar d sk r c 'i' m =
      some { CSVModel.save_current_state m with state := .Editing r c } := rfl

theorem navChar_r (d : String) (sk : Bool) (r c : Nat) (m : CSVModel) :
    navChar d sk r c 'r' m =
      (setCell m.grid r c "").map fun g =>
        { m with grid := g, state := .Editing r c } := rfl

theorem navChar_H (d : String) (sk : Bool) (r c : Nat) (m : CSVModel) :
    navChar d sk r c 'H' m =
      some { CSVModel.save_current_state m with state := .EditingHeader c } := rfl

theorem navChar_y (d : String) (sk : Bool) (r c : Nat) (m : CSVModel) :
    navChar d sk r c 'y' m = CSVModel.copy_selected_cell_to_buffer m := rfl

theorem navChar_p (d : String) (sk : Bool) (r c : Nat) (m : CSVModel) :
    navChar d sk r c 'p' m =
      CSVModel.paste_from_buffer (CSVModel.save_current_state m) := rfl

theorem navChar_dot (d : String) (sk : Bool) (r c : Nat) (m : CSVModel) :
    navChar d sk r c '.' m = CSVModel.paste_date d m := rfl

theorem navChar_q (d : String) (sk : Bool) (r c : Nat) (m : CSVModel) :
    navChar d sk r c 'q' m =
      (if sk then
        some { m with
                running := false,
                writes := m.writes ++ [(m.file_path, CSVModel.save_changes_to_file m)] }
      else none) := rfl

theorem wAdd_eq (a b : Nat) (h : a + b < USIZE) : wAdd a b = a + b := by
  unfold wAdd USIZE at *
  omega

theorem wSub_one (n : Nat) (h0 : 0 < n) (h1 : n ≤ USIZE) : wSub n 1 = n - 1 := by
  unfold wSub USIZE at *
  omega

/-! Effect of each Navigating-mode key on the undo stack and the mode. -/

open CSVModel

theorem eff_o (d : String) (sk : Bool) (r c : Nat) (m m' : CSVModel)
    (h : navChar d sk r c 'o' m = some m') :
    m'.working_states = (m.headers, m.grid) :: m.working_states ∧
      m'.state = .Navigating (wAdd r 1) c := by
  rw [navChar_o, insert_empty_row_after] at h
  simp only [Option.map_map, Option.map_eq_some'] at h
  obtain ⟨g, hg, rfl⟩ := h
  exact ⟨rfl, rfl⟩

theorem eff_O (d : String) (sk : Bool) (r c : Nat) (m m' : CSVModel)
    (h : navChar d sk r c 'O' m = some m') :
    m'.working_states = (m.headers, m.grid) :: m.working_states ∧
      m'.state = .Navigating r c := by
  rw [navChar_O, insert_empty_row_before] at h
  simp only [Option.map_map, Option.map_eq_some'] at h
  obtain ⟨g, hg, rfl⟩ := h
  exact ⟨rfl, rfl⟩

theorem eff_d (d : String) (sk : Bool) (r c : Nat) (m m' : CSVModel)
    (h : navChar d sk r c 'd' m = some m') :
    m'.working_states = (m.headers, m.grid) :: m.working_states ∧
      (m'.state = .Navigating (wSub r 1) c ∨ m'.state = .Navigating r c) := by
  rw [navChar_d, delete_row] at h
  simp only [Option.map_map, Option.map_eq_some'] at h
  obtain ⟨g, hg, rfl⟩ := h
  simp only [Function.comp_apply]
  split
  · exact ⟨rfl, Or.inl rfl⟩
  · exact ⟨rfl, Or.inr rfl⟩

theorem eff_n (d : String) (sk : Bool) (r c : Nat) (m m' : CSVModel)
    (h : navChar d sk r c 'n' m = some m') :
    m'.working_states = (m.headers, m.grid) :: m.working_states ∧
      m'.state = .Navigating r (wAdd c 1) := by
  rw [navChar_n, insert_empty_col_after] at h
  simp only [Option.map_eq_some', Option.bind_eq_some] at h
  obtain ⟨m1, ⟨a, ha, g, hg, rfl⟩, rfl⟩ := h
  exact ⟨rfl, rfl⟩

theorem eff_N (d : String) (sk : Bool) (r c : Nat) (m m' : CSVModel)
    (h : navChar d sk r c 'N' m = some m') :
    m'.working_states = (m.headers, m.grid) :: m.working_states ∧
      m'.state = .Navigating r c := by
  rw [navChar_N, insert_empty_col_before] at h
  simp only [Option.map_eq_some', Option.bind_eq_some] at h
  obtain ⟨m1, ⟨a, ha, g, hg, rfl⟩, rfl⟩ := h
  exact ⟨rfl, rfl⟩

theorem eff_D (d : String) (sk : Bool) (r c : Nat) (m m' : CSVModel)
    (h : navChar d sk r c 'D' m = some m') :
    m'.working_states = (m.headers, m.grid) :: m.working_states ∧
      (m'.state = .Navigating r (wSub c 1) ∨ m'.state = .Navigating r c) := by
  rw [navChar_D, delete_col] at h
  simp only [Option.map_eq_some', Option.bind_eq_some] at h
  obtain ⟨m1, ⟨a, ha, g, hg, rfl⟩, rfl⟩ := h
  split
  · exact ⟨rfl, Or.inl rfl⟩
  · exact ⟨rfl, Or.inr rfl⟩

theorem eff_p (d : String) (sk : Bool) (r c : Nat) (m m' : CSVModel)
    (hs : m.state = .Navigating r c)
    (h : navChar d sk r c 'p' m = some m') :
    m'.working_states = (m.headers, m.grid) :: m.working_states ∧
      m'.state = .Navigating r c := by
  obtain ⟨fp, hd, gr, st, run, ws, cb, wr⟩ := m
  cases hs
  rw [navChar_p] at h
  cases cb with
  | none =>
    simp only [paste_from_buffer, save_current_state, Option.some.injEq] at h
    subst h
    exact ⟨rfl, rfl⟩
  | some v =>
    simp only [paste_from_buffer, save_current_state, Option.map_eq_some'] at h
    obtain ⟨g, hg, rfl⟩ := h
    exact ⟨rfl, rfl⟩

theorem eff_r (d : String) (sk : Bool) (r c : Nat) (m m' : CSVModel)
    (h : navChar d sk r c 'r' m = some m') :
    m'.working_states = m.working_states ∧ m'.state = .Editing r c := by
  rw [navChar_r] at h
  simp only [Option.map_eq_some'] at h
  obtain ⟨g, hg, rfl⟩ := h
  exact ⟨rfl, rfl⟩

theorem eff_dot (d : String) (sk : Bool) (r c : Nat) (m m' : CSVModel)
    (hs : m.state = .Navigating r c)
    (h : navChar d sk r c '.' m = some m') :
    m'.working_states = m.working_states ∧ m'.state = .Navigating r c := by
  obtain ⟨fp, hd, gr, st, run, ws, cb, wr⟩ := m
  cases hs
  rw [navChar_dot] at h
  simp only [paste_date, Option.map_eq_some'] at h
  obtain ⟨g, hg, rfl⟩ := h
  exact ⟨rfl, rfl⟩

theorem eff_y (d : String) (sk : Bool) (r c : Nat) (m m' : CSVModel)
    (hs : m.state = .Navigating r c)
    (h : navChar d sk r c 'y' m = some m') :
    m'.working_states = m.working_states ∧ m'.state = .Navigating r c := by
  obtain ⟨fp, hd, gr, st, run, ws, cb, wr⟩ := m
  cases hs
  rw [navChar_y] at h
  simp only [copy_selected_cell_to_buffer, Option.map_eq_some'] at h
  obtain ⟨v, hv, rfl⟩ := h
  exact ⟨rfl, rfl⟩

theorem eff_nav_ws (d : String) (sk : Bool) (r c : Nat) (m : CSVModel)
    (ch : Char)
    (hch : ch = 'j' ∨ ch = 'k' ∨ ch = 'h' ∨ ch = '}' ∨ ch = '{' ∨ ch = 'g' ∨
      ch = 'G' ∨ ch = 'I' ∨ ch = 'A') :
    ∀ m', navChar d sk r c ch m = some m' →
      m'.working_states = m.working_states := by
  intro m' h
  rcases hch with rfl | rfl | rfl | rfl | rfl | rfl | rfl | rfl | rfl
  · rw [navChar_j] at h
    obtain rfl := Option.some.inj h
    split <;> rfl
  · rw [navChar_k] at h
    obtain rfl := Option.some.inj h
    split <;> rfl
  · rw [navChar_h] at h
    obtain rfl := Option.some.inj h
    split <;> rfl
  · rw [navChar_pgdn] at h
    obtain rfl := Option.some.inj h
    rfl
  · rw [navChar_pgup] at h
    obtain rfl := Option.some.inj h
    split <;> rfl
  · rw [navChar_g] at h
    obtain rfl := Option.some.inj h
    rfl
  · rw [navChar_G] at h
    obtain rfl := Option.some.inj h
    rfl
  · rw [navChar_I] at h
    obtain rfl := Option.some.inj h
    rfl
  · rw [navChar_A] at h
    obtain rfl := Option.some.inj h
    rfl

theorem eff_nav_l (d : String) (sk : Bool) (r c : Nat) (m m' : CSVModel)
    (h : navChar d sk r c 'l' m = some m') :
    m'.working_states = m.working_states := by
  rw [navChar_l] at h
  simp only [Option.map_eq_some'] at h
  obtain ⟨row, hrow, rfl⟩ := h
  split <;> rfl

/-! Undo and key-sequence infrastructure. -/

theorem undo_step (d : String) (sk : Bool) (r c : Nat) (m : CSVModel)
    (hs : m.state = .Navigating r c) :
    handle_keyboard_input d sk (.char 'u') m =
      some (restore_last_state m) := by
  rw [handle_nav_char d sk r c 'u' m hs, navChar_u]

theorem restore_of_cons (m : CSVModel) (hh : List String)
    (gg : List (List String))
    (rest : List (List String × List (List String)))
    (hws : m.working_states = (hh, gg) :: rest) :
    (restore_last_state m).headers = hh ∧
    (restore_last_state m).grid = gg ∧
    (restore_last_state m).working_states = rest ∧
    ((gg.length ≤ (get_current_row_and_col m).1 →
      (restore_last_state m).state = .Navigating (wSub gg.length 1) 0) ∧
     ((get_current_row_and_col m).1 < gg.length →
      (restore_last_state m).state = m.state)) := by
  obtain ⟨fp, hd, gr, st, run, ws, cb, wr⟩ := m
  cases hws
  unfold restore_last_state
  simp only [get_current_row_and_col]
  split
  · next hle =>
    refine ⟨rfl, rfl, rfl, fun _ => rfl, fun hlt => absurd hle (by omega)⟩
  · next hgt =>
    refine ⟨rfl, rfl, rfl, fun hle => absurd hle (by omega), fun _ => rfl⟩

theorem restore_of_nil (m : CSVModel) (hws : m.working_states = []) :
    restore_last_state m = m := by
  obtain ⟨fp, hd, gr, st, run, ws, cb, wr⟩ := m
  cases hws
  rfl

theorem restore_state_nav (m : CSVModel) (r c : Nat)
    (hs : m.state = .Navigating r c) :
    ∃ r2 c2, (restore_last_state m).state = .Navigating r2 c2 := by
  obtain ⟨fp, hd, gr, st, run, ws, cb, wr⟩ := m
  cases hs
  unfold restore_last_state
  cases ws with
  | nil => exact ⟨r, c, rfl⟩
  | cons p rest =>
    obtain ⟨hh, gg⟩ := p
    dsimp only
    split
    · exact ⟨wSub gg.length 1, 0, rfl⟩
    · exact ⟨r, c, rfl⟩

theorem runKeys_cons (d : String) (sk : Bool) (k : Key) (ks : List Key)
    (m : CSVModel) :
    runKeys d sk (k :: ks) m =
      (handle_keyboard_input d sk k m).bind (runKeys d sk ks) := rfl

theorem runKeys_nil (d : String) (sk : Bool) (m : CSVModel) :
    runKeys d sk [] m = some m := rfl

theorem runKeys_append (d : String) (sk : Bool) (l1 l2 : List Key)
    (m : CSVModel) :
    runKeys d sk (l1 ++ l2) m =
      (runKeys d sk l1 m).bind (runKeys d sk l2) := by
  induction l1 generalizing m with
  | nil => simp [runKeys]
  | cons k ks ih =>
    rw [List.cons_append, runKeys_cons, runKeys_cons, Option.bind_assoc]
    cases handle_keyboard_input d sk k m with
    | none => rfl
    | some m1 => exact ih m1

theorem runUndos_succ (d : String) (sk : Bool) (n : Nat) (m : CSVModel) :
    runUndos d sk (n + 1) m =
      (runUndos d sk n m).bind
        (handle_keyboard_input d sk (.char 'u')) := by
  induction n generalizing m with
  | zero =>
    cases hu : handle_keyboard_input d sk (.char 'u') m <;>
      simp [runUndos, hu]
  | succ n ih =>
    have h1 : runUndos d sk (n + 1 + 1) m =
        (handle_keyboard_input d sk (.char 'u') m).bind (runUndos d sk (n + 1)) := rfl
    have h2 : runUndos d sk (n + 1) m =
        (handle_keyboard_input d sk (.char 'u') m).bind (runUndos d sk n) := rfl
    rw [h1, h2]
    cases hu : handle_keyboard_input d sk (.char 'u') m with
    | none => simp
    | some m1 => simp [ih m1]


theorem edit_keys_effect (d : String) (sk : Bool) (ks : List EditKey) :
    ∀ (m m' : CSVModel) (r c : Nat), m.state = .Editing r c →
      runKeys d sk (ks.map EditKey.toKey) m = some m' →
      m'.state = .Editing r c ∧ m'.working_states = m.working_states := by
  induction ks with
  | nil =>
    intro m m' r c hs h
    obtain rfl := Option.some.inj h
    exact ⟨hs, rfl⟩
  | cons k ks ih =>
    intro m m' r c hs h
    rw [List.map_cons, runKeys_cons, handle_edit_eq d sk r c _ m hs,
      Option.bind_eq_some] at h
    obtain ⟨m1, h1, h2⟩ := h
    have hstep : m1.state = .Editing r c ∧
        m1.working_states = m.working_states := by
      cases k with
      | ch c0 =>
        simp only [EditKey.toKey, editStep, Option.map_eq_some'] at h1
        obtain ⟨g, hg, rfl⟩ := h1
        exact ⟨hs, rfl⟩
      | backspace =>
        simp only [EditKey.toKey, editStep, Option.map_eq_some'] at h1
        obtain ⟨g, hg, rfl⟩ := h1
        exact ⟨hs, rfl⟩
    obtain ⟨h3, h4⟩ := ih m1 m' r c hstep.1 h2
    exact ⟨h3, h4.trans hstep.2⟩

theorem header_keys_effect (d : String) (sk : Bool) (ks : List EditKey) :
    ∀ (m m' : CSVModel) (c : Nat), m.state = .EditingHeader c →
      runKeys d sk (ks.map EditKey.toKey) m = some m' →
      m'.state = .EditingHeader c ∧ m'.working_states = m.working_states := by
  induction ks with
  | nil =>
    intro m m' c hs h
    obtain rfl := Option.some.inj h
    exact ⟨hs, rfl⟩
  | cons k ks ih =>
    intro m m' c hs h
    rw [List.map_cons, runKeys_cons, handle_header_eq d sk c _ m hs,
      Option.bind_eq_some] at h
    obtain ⟨m1, h1, h2⟩ := h
    have hstep : m1.state = .EditingHeader c ∧
        m1.working_states = m.working_states := by
      cases k with
      | ch c0 =>
        simp only [EditKey.toKey, headerStep, Option.map_eq_some'] at h1
        obtain ⟨s, hsv, rfl⟩ := h1
        exact ⟨hs, rfl⟩
      | backspace =>
        simp only [EditKey.toKey, headerStep, Option.map_eq_some'] at h1
        obtain ⟨s, hsv, rfl⟩ := h1
        exact ⟨hs, rfl⟩
    obtain ⟨h3, h4⟩ := ih m1 m' c hstep.1 h2
    exact ⟨h3, h4.trans hstep.2⟩

theorem op_push (d : String) (sk : Bool) (op : MutOp)
    (hsafe : safeOp op = true) (m m' : CSVModel) (r c : Nat)
    (hs : m.state = .Navigating r c)
    (h : runKeys d sk (opKeys op) m = some m') :
    m'.working_states = (m.headers, m.grid) :: m.working_states ∧
      ∃ r2 c2, m'.state = .Navigating r2 c2 := by
  cases op with
  | insertRowAfter =>
    rw [opKeys, runKeys_cons, handle_nav_char d sk r c 'o' m hs] at h
    cases hch : navChar d sk r c 'o' m with
    | none => rw [hch] at h; exact absurd h (by simp)
    | some m1 =>
      rw [hch] at h
      obtain rfl := Option.some.inj h
      obtain ⟨h1, h2⟩ := eff_o d sk r c m m1 hch
      exact ⟨h1, _, _, h2⟩
  | insertRowBefore =>
    rw [opKeys, runKeys_cons, handle_nav_char d sk r c 'O' m hs] at h
    cases hch : navChar d sk r c 'O' m with
    | none => rw [hch] at h; exact absurd h (by simp)
    | some m1 =>
      rw [hch] at h
      obtain rfl := Option.some.inj h
      obtain ⟨h1, h2⟩ := eff_O d sk r c m m1 hch
      exact ⟨h1, _, _, h2⟩
  | deleteRow =>
    rw [opKeys, runKeys_cons, handle_nav_char d sk r c 'd' m hs] at h
    cases hch : navChar d sk r c 'd' m with
    | none => rw [hch] at h; exact absurd h (by simp)
    | some m1 =>
      rw [hch] at h
      obtain rfl := Option.some.inj h
      obtain ⟨h1, h2⟩ := eff_d d sk r c m m1 hch
      rcases h2 with h2 | h2
      · exact ⟨h1, _, _, h2⟩
      · exact ⟨h1, _, _, h2⟩
  | insertColAfter =>
    rw [opKeys, runKeys_cons, handle_nav_char d sk r c 'n' m hs] at h
    cases hch : navChar d sk r c 'n' m with
    | none => rw [hch] at h; exact absurd h (by simp)
    | some m1 =>
      rw [hch] at h
      obtain rfl := Option.some.inj h
      obtain ⟨h1, h2⟩ := eff_n d sk r c m m1 hch
      exact ⟨h1, _, _, h2⟩
  | insertColBefore =>
    rw [opKeys, runKeys_cons, handle_nav_char d sk r c 'N' m hs] at h
    cases hch : navChar d sk r c 'N' m with
    | none => rw [hch] at h; exact absurd h (by simp)
    | some m1 =>
      rw [hch] at h
      obtain rfl := Option.some.inj h
      obtain ⟨h1, h2⟩ := eff_N d sk r c m m1 hch
      exact ⟨h1, _, _, h2⟩
  | deleteCol =>
    rw [opKeys, runKeys_cons, handle_nav_char d sk r c 'D' m hs] at h
    cases hch : navChar d sk r c 'D' m with
    | none => rw [hch] at h; exact absurd h (by simp)
    | some m1 =>
      rw [hch] at h
      obtain rfl := Option.some.inj h
      obtain ⟨h1, h2⟩ := eff_D d sk r c m m1 hch
      rcases h2 with h2 | h2
      · exact ⟨h1, _, _, h2⟩
      · exact ⟨h1, _, _, h2⟩
  | paste =>
    rw [opKeys, runKeys_cons, handle_nav_char d sk r c 'p' m hs] at h
    cases hch : navChar d sk r c 'p' m with
    | none => rw [hch] at h; exact absurd h (by simp)
    | some m1 =>
      rw [hch] at h
      obtain rfl := Option.some.inj h
      obtain ⟨h1, h2⟩ := eff_p d sk r c m m1 hs hch
      exact ⟨h1, _, _, h2⟩
  | editCell ks =>
    rw [opKeys, runKeys_cons, handle_nav_char d sk r c 'i' m hs, navChar_i,
      Option.some_bind, runKeys_append, Option.bind_eq_some] at h
    obtain ⟨m1, h1, h2⟩ := h
    obtain ⟨hst1, hws1⟩ := edit_keys_effect d sk ks _ m1 r c rfl h1
    rw [runKeys_cons, handle_edit_eq d sk r c .enter m1 hst1] at h2
    simp only [editStep, Option.some_bind] at h2
    obtain rfl := Option.some.inj h2
    refine ⟨?_, r, c, rfl⟩
    exact hws1
  | editHeader ks =>
    rw [opKeys, runKeys_cons, handle_nav_char d sk r c 'H' m hs, navChar_H,
      Option.some_bind, runKeys_append, Option.bind_eq_some] at h
    obtain ⟨m1, h1, h2⟩ := h
    obtain ⟨hst1, hws1⟩ := header_keys_effect d sk ks _ m1 c rfl h1
    rw [runKeys_cons, handle_header_eq d sk c .enter m1 hst1] at h2
    simp only [headerStep, Option.some_bind] at h2
    obtain rfl := Option.some.inj h2
    refine ⟨?_, 0, c, rfl⟩
    exact hws1
  | replaceCell ks => simp [safeOp] at hsafe
  | pasteDate => simp [safeOp] at hsafe

theorem c1_aux (d : String) (sk : Bool) (ops : List MutOp) :
    ∀ (m m' : CSVModel) (r c : Nat),
      (∀ op ∈ ops, safeOp op = true) →
      m.state = .Navigating r c →
      runOps d sk ops m = some m' →
      ∃ m2, runUndos d sk ops.length m' = some m2 ∧
        m2.headers = m.headers ∧ m2.grid = m.grid ∧
        m2.working_states = m.working_states ∧
        ∃ r2 c2, m2.state = .Navigating r2 c2 := by
  induction ops with
  | nil =>
    intro m m' r c _ hs h
    obtain rfl := Option.some.inj h
    exact ⟨m, rfl, rfl, rfl, rfl, r, c, hs⟩
  | cons op ops ih =>
    intro m m' r c hsafe hs h
    have hrun : (runKeys d sk (opKeys op) m).bind (runOps d sk ops) = some m' := h
    rw [Option.bind_eq_some] at hrun
    obtain ⟨m1, h1, h2⟩ := hrun
    obtain ⟨hws1, r1, c1, hst1⟩ :=
      op_push d sk op (hsafe op (by simp)) m m1 r c hs h1
    obtain ⟨m2, hu, hh2, hg2, hws2, r2, c2, hst2⟩ :=
      ih m1 m' r1 c1 (fun o ho => hsafe o (by simp [ho])) hst1 h2
    have hws2' : m2.working_states = (m.headers, m.grid) :: m.working_states :=
      hws2.trans hws1
    have hu1 : handle_keyboard_input d sk (.char 'u') m2 =
        some (restore_last_state m2) := undo_step d sk r2 c2 m2 hst2
    obtain ⟨ha, hb, hc, _⟩ :=
      restore_of_cons m2 m.headers m.grid m.working_states hws2'
    obtain ⟨r3, c3, hst3⟩ := restore_state_nav m2 r2 c2 hst2
    refine ⟨restore_last_state m2, ?_, ha, hb, hc, r3, c3, hst3⟩
    rw [List.length_cons, runUndos_succ, hu, Option.some_bind]
    exact hu1

/-- C1 (counterexample): the claim fails as stated.  On the document with
headers `["h"]` and grid `[["x"]]`, one replace-style edit (entered, no
keystrokes, confirmed) followed by one undo leaves the grid `[[""]]`, and
one paste-date followed by one undo leaves the grid with the date; neither
restores the pre-mutation grid `[["x"]]`, because neither operation pushes
a snapshot. -/
theorem c1_undo_counterexample :
    ((runOps "2024-01-01" true [MutOp.replaceCell []]
        ⟨"f", ["h"], [["x"]], .Navigating 0 0, true, [], none, []⟩).bind
      (runUndos "2024-01-01" true 1)).map (fun x => x.grid)
      = some [[""]] ∧
    ((runOps "2024-01-01" true [MutOp.pasteDate]
        ⟨"f", ["h"], [["x"]], .Navigating 0 0, true, [], none, []⟩).bind
      (runUndos "2024-01-01" true 1)).map (fun x => x.grid)
      = some [["2024-01-01"]] ∧
    ([[""]] : List (List String)) ≠ [["x"]] ∧
    ([["2024-01-01"]] : List (List String)) ≠ [["x"]] :=
  ⟨rfl, rfl, by decide, by decide⟩

/-- C1 (amended): for every document state in Navigating mode and every
sequence of N mutating operations drawn from row and column insert and
delete, insert-style edit sessions, header edit sessions, and paste
(replace-style edits and paste-date excluded, since they push no
snapshot), if the N operations run without a panic then issuing the undo
symbol N times restores the headers, the grid, and the undo stack to
exactly their pre-mutation state. -/
theorem c1_undo_strict_inverse (d : String) (sk : Bool) (ops : List MutOp)
    (m m' : CSVModel) (r c : Nat)
    (hsafe : ∀ op ∈ ops, safeOp op = true)
    (hs : m.state = .Navigating r c)
    (h : runOps d sk ops m = some m') :
    (runUndos d sk ops.length m').map
        (fun x => (x.headers, x.grid, x.working_states)) =
      some (m.headers, m.grid, m.working_states) := by
  obtain ⟨m2, hu, h1, h2, h3, _⟩ := c1_aux d sk ops m m' r c hsafe hs h
  rw [hu]
  simp [h1, h2, h3]

/-- C1 (witness): the amended theorem applied to a one-operation run,
inserting a row after the cursor on a one-row document and undoing once. -/
theorem c1_undo_strict_inverse_witness :
    (runUndos "2024-01-01" true 1
        ⟨"f", ["h"], [["x"], [""]], .Navigating 1 0, true,
          [(["h"], [["x"]])], none, []⟩).map
        (fun x => (x.headers, x.grid, x.working_states))
      = some (["h"], [["x"]], []) :=
  c1_undo_strict_inverse "2024-01-01" true [MutOp.insertRowAfter]
    ⟨"f", ["h"], [["x"]], .Navigating 0 0, true, [], none, []⟩
    ⟨"f", ["h"], [["x"], [""]], .Navigating 1 0, true,
      [(["h"], [["x"]])], none, []⟩
    0 0 (by decide) rfl rfl

/-- C2 (counterexample): the claim fails as stated.  In Navigating mode on
a one-cell document with an empty undo stack, the replace-style edit key
and the paste-date key each leave the undo stack empty, pushing zero
snapshots where the claim requires exactly one. -/
theorem c2_snapshot_counterexample :
    (handle_keyboard_input "2024-01-01" true (.char 'r')
        ⟨"f", ["h"], [["x"]], .Navigating 0 0, true, [], none, []⟩).map
      (fun x => x.working_states) = some [] ∧
    (handle_keyboard_input "2024-01-01" true (.char '.')
        ⟨"f", ["h"], [["x"]], .Navigating 0 0, true, [], none, []⟩).map
      (fun x => x.working_states) = some [] :=
  ⟨rfl, rfl⟩

/-- C2 (amended): for every key dispatch in Navigating mode, each
structural mutation (insert-row-after and insert-row-before, delete-row,
insert-col-after and insert-col-before, delete-col), the insert-style
edit-entry keys, the header-edit key, and the paste key push exactly one
snapshot (the pre-mutation document) onto the undo stack, while the
replace-style edit key and the paste-date key push none, and the pure
navigation keys (movement, page movement, jumps) push none. -/
theorem c2_snapshot_counts (d : String) (sk : Bool) (m : CSVModel)
    (r c : Nat) (hs : m.state = .Navigating r c) :
    (∀ m', handle_keyboard_input d sk (.char 'o') m = some m' →
      m'.working_states = (m.headers, m.grid) :: m.working_states) ∧
    (∀ m', handle_keyboard_input d sk (.char 'O') m = some m' →
      m'.working_states = (m.headers, m.grid) :: m.working_states) ∧
    (∀ m', handle_keyboard_input d sk (.char 'd') m = some m' →
      m'.working_states = (m.headers, m.grid) :: m.working_states) ∧
    (∀ m', handle_keyboard_input d sk (.char 'n') m = some m' →
      m'.working_states = (m.headers, m.grid) :: m.working_states) ∧
    (∀ m', handle_keyboard_input d sk (.char 'N') m = some m' →
      m'.working_states = (m.headers, m.grid) :: m.working_states) ∧
    (∀ m', handle_keyboard_input d sk (.char 'D') m = some m' →
      m'.working_states = (m.headers, m.grid) :: m.working_states) ∧
    (∀ m', handle_keyboard_input d sk (.char 'i') m = some m' →
      m'.working_states = (m.headers, m.grid) :: m.working_states) ∧
    (∀ m', handle_keyboard_input d sk .enter m = some m' →
      m'.working_states = (m.headers, m.grid) :: m.working_states) ∧
    (∀ m', handle_keyboard_input d sk (.char 'H') m = some m' →
      m'.working_states = (m.headers, m.grid) :: m.working_states) ∧
    (∀ m', handle_keyboard_input d sk (.char 'p') m = some m' →
      m'.working_states = (m.headers, m.grid) :: m.working_states) ∧
    (∀ m', handle_keyboard_input d sk (.char 'r') m = some m' →
      m'.working_states = m.working_states) ∧
    (∀ m', handle_keyboard_input d sk (.char '.') m = some m' →
      m'.working_states = m.working_states) ∧
    (∀ ch, (ch = 'j' ∨ ch = 'k' ∨ ch = 'h' ∨ ch = '}' ∨ ch = '{' ∨
        ch = 'g' ∨ ch = 'G' ∨ ch = 'I' ∨ ch = 'A') →
      ∀ m', handle_keyboard_input d sk (.char ch) m = some m' →
        m'.working_states = m.working_states) ∧
    (∀ m', handle_keyboard_input d sk (.char 'l') m = some m' →
      m'.working_states = m.working_states) := by
  refine ⟨?_, ?_, ?_, ?_, ?_, ?_, ?_, ?_, ?_, ?_, ?_, ?_, ?_, ?_⟩
  · intro m' h
    rw [handle_nav_char d sk r c 'o' m hs] at h
    exact (eff_o d sk r c m m' h).1
  · intro m' h
    rw [handle_nav_char d sk r c 'O' m hs] at h
    exact (eff_O d sk r c m m' h).1
  · intro m' h
    rw [handle_nav_char d sk r c 'd' m hs] at h
    exact (eff_d d sk r c m m' h).1
  · intro m' h
    rw [handle_nav_char d sk r c 'n' m hs] at h
    exact (eff_n d sk r c m m' h).1
  · intro m' h
    rw [handle_nav_char d sk r c 'N' m hs] at h
    exact (eff_N d sk r c m m' h).1
  · intro m' h
    rw [handle_nav_char d sk r c 'D' m hs] at h
    exact (eff_D d sk r c m m' h).1
  · intro m' h
    rw [handle_nav_char d sk r c 'i' m hs, navChar_i] at h
    obtain rfl := Option.some.inj h
    rfl
  · intro m' h
    rw [handle_nav_enter d sk r c m hs] at h
    obtain rfl := Option.some.inj h
    rfl
  · intro m' h
    rw [handle_nav_char d sk r c 'H' m hs, navChar_H] at h
    obtain rfl := Option.some.inj h
    rfl
  · intro m' h
    rw [handle_nav_char d sk r c 'p' m hs] at h
    exact (eff_p d sk r c m m' hs h).1
  · intro m' h
    rw [handle_nav_char d sk r c 'r' m hs] at h
    exact (eff_r d sk r c m m' h).1
  · intro m' h
    rw [handle_nav_char d sk r c '.' m hs] at h
    exact (eff_dot d sk r c m m' hs h).1
  · intro ch hch m' h
    rw [handle_nav_char d sk r c ch m hs] at h
    exact eff_nav_ws d sk r c m ch hch m' h
  · intro m' h
    rw [handle_nav_char d sk r c 'l' m hs] at h
    exact eff_nav_l d sk r c m m' h

/-- C2 (witness): the amended theorem applied to the insert-row-after key
on a concrete one-row document, whose dispatch pushes exactly the
pre-mutation snapshot. -/
theorem c2_snapshot_counts_witness :
    (⟨"f", ["h"], [["x"], [""]], .Navigating 1 0, true,
        [(["h"], [["x"]])], none, []⟩ : CSVModel).working_states =
      [(["h"], [["x"]])] :=
  (c2_snapshot_counts "2024-01-01" true
      ⟨"f", ["h"], [["x"]], .Navigating 0 0, true, [], none, []⟩
      0 0 rfl).1
    ⟨"f", ["h"], [["x"], [""]], .Navigating 1 0, true,
      [(["h"], [["x"]])], none, []⟩ rfl

/-- C3 (code bug evaluation): on the document with headers
`["a", "b"]` and two rows, cursor at column 1, the delete-col dispatch
removes the last column but leaves the cursor column at 1 while the header
length is 1, because the source compares the column index against
`grid.len()` (the row count, here 2) instead of the header length when
clamping; the cursor bounds invariant of the claim is violated. -/
theorem c3_delete_col_cursor_out_of_bounds :
    (handle_keyboard_input "2024-01-01" true (.char 'D')
        ⟨"f", ["a", "b"], [["x", "y"], ["z", "w"]], .Navigating 0 1, true,
          [], none, []⟩).map
      (fun x => (x.headers, x.state, decide (cursorInBounds x))) =
      some (["a"], .Navigating 0 1, false) := rfl

/-- C4 (code bug evaluation): deleting the only remaining row sets the
cursor row to `0 - 1` in `usize`, which wraps to `2 ^ 64 - 1` (and panics
in a debug build), and the subsequent up-navigation key on the zero-row
grid then moves the cursor to `2 ^ 64 - 2` instead of being a no-op: the
claimed clamped-no-op behaviour fails. -/
theorem c4_delete_last_row_underflow :
    ((handle_keyboard_input "2024-01-01" true (.char 'd')
        ⟨"f", ["a"], [["x"]], .Navigating 0 0, true, [], none, []⟩).map
      (fun x => (x.grid, x.state)) =
      some ([], .Navigating (USIZE - 1) 0)) ∧
    ((handle_keyboard_input "2024-01-01" true (.char 'k')
        ⟨"f", ["a"], [], .Navigating (USIZE - 1) 0, true,
          [(["a"], [["x"]])], none, []⟩).map
      (fun x => x.state) = some (.Navigating (USIZE - 2) 0)) :=
  ⟨rfl, rfl⟩

/-- C5: on the quit key in Navigating mode the document is written in full
to its source path, the header row first and then every row, and the
running flag is cleared; if the write fails, the failed unwrap aborts the
dispatch (the failure is surfaced as a panic) instead of continuing or
stopping silently. -/
theorem c5_quit_writes_and_stops (d : String) (m : CSVModel) (r c : Nat)
    (hs : m.state = .Navigating r c) :
    handle_keyboard_input d true (.char 'q') m =
      some { m with
              running := false,
              writes := m.writes ++ [(m.file_path, save_changes_to_file m)] } ∧
    save_changes_to_file m = m.headers :: m.grid ∧
    handle_keyboard_input d false (.char 'q') m = none := by
  refine ⟨?_, rfl, ?_⟩
  · rw [handle_nav_char d true r c 'q' m hs, navChar_q]
    rfl
  · rw [handle_nav_char d false r c 'q' m hs, navChar_q]
    rfl

/-- C5 (witness): the quit theorem applied to a concrete one-row
document. -/
theorem c5_quit_writes_and_stops_witness :
    handle_keyboard_input "2024-01-01" true (.char 'q')
        ⟨"f", ["h"], [["x"]], .Navigating 0 0, true, [], none, []⟩ =
      some ⟨"f", ["h"], [["x"]], .Navigating 0 0, false, [], none,
        [("f", [["h"], ["x"]])]⟩ :=
  (c5_quit_writes_and_stops "2024-01-01"
      ⟨"f", ["h"], [["x"]], .Navigating 0 0, true, [], none, []⟩ 0 0 rfl).1

/-- C8: the undo key pops the most recent snapshot and replaces the live
headers and grid wholesale with it; when the restored row count is at most
the current cursor row the cursor is clamped to row `rows.len() - 1`
(computed in `usize`) and column 0, otherwise the mode is unchanged; an
undo with an empty stack leaves the model unchanged. -/
theorem c8_undo_pop_semantics (d : String) (sk : Bool) (m : CSVModel) :
    (m.working_states = [] → restore_last_state m = m) ∧
    (∀ hh gg rest, m.working_states = (hh, gg) :: rest →
      (restore_last_state m).headers = hh ∧
      (restore_last_state m).grid = gg ∧
      (restore_last_state m).working_states = rest ∧
      ((gg.length ≤ (get_current_row_and_col m).1 →
        (restore_last_state m).state = .Navigating (wSub gg.length 1) 0) ∧
       ((get_current_row_and_col m).1 < gg.length →
        (restore_last_state m).state = m.state))) ∧
    (∀ r c, m.state = .Navigating r c →
      handle_keyboard_input d sk (.char 'u') m =
        some (restore_last_state m)) := by
  refine ⟨restore_of_nil m, ?_, fun r c hs => undo_step d sk r c m hs⟩
  intro hh gg rest hws
  exact restore_of_cons m hh gg rest hws

/-- C8 (witness): undoing on a stack holding one two-row snapshot while
the cursor row is 5 restores that snapshot and clamps the cursor to the
last restored row. -/
theorem c8_undo_pop_semantics_witness :
    (restore_last_state
        ⟨"f", ["x", "y"], [["1", "2"]], .Navigating 5 0, true,
          [(["a"], [["p"], ["q"]])], none, []⟩).grid = [["p"], ["q"]] ∧
    (restore_last_state
        ⟨"f", ["x", "y"], [["1", "2"]], .Navigating 5 0, true,
          [(["a"], [["p"], ["q"]])], none, []⟩).state = .Navigating 1 0 := by
  have h := (c8_undo_pop_semantics "2024-01-01" true
      ⟨"f", ["x", "y"], [["1", "2"]], .Navigating 5 0, true,
        [(["a"], [["p"], ["q"]])], none, []⟩).2.1
    ["a"] [["p"], ["q"]] [] rfl
  exact ⟨h.2.1, h.2.2.2.1 (by decide)⟩

/-- C10: restoring the last state mutates only the headers, the grid and
the mode with its cursor: the clipboard slot, the file path, the running
flag and the write trace are unchanged, whether or not the stack was
empty; in particular undo never reverts or clears the clipboard. -/
theorem c10_restore_frame_effect (m : CSVModel) :
    (restore_last_state m).copy_buffer = m.copy_buffer ∧
    (restore_last_state m).file_path = m.file_path ∧
    (restore_last_state m).running = m.running ∧
    (restore_last_state m).writes = m.writes := by
  obtain ⟨fp, hd, gr, st, run, ws, cb, wr⟩ := m
  unfold restore_last_state
  cases ws with
  | nil => exact ⟨rfl, rfl, rfl, rfl⟩
  | cons p rest =>
    obtain ⟨hh, gg⟩ := p
    dsimp only
    split <;> exact ⟨rfl, rfl, rfl, rfl⟩

/-- C9: in Navigating mode on a non-empty grid with the cursor in bounds,
each movement key moves the cursor by exactly one cell, clamped at the
grid edges and never wrapping, and each page-movement key moves the row by
exactly 5, clamped to the valid row range (the two length-bound
hypotheses state that the grid fits in a `usize`, as every Rust `Vec`
does). -/
theorem c9_navigation_clamped (d : String) (sk : Bool) (m : CSVModel)
    (r c : Nat) (row : List String)
    (hs : m.state = .Navigating r c)
    (hrow : m.grid[r]? = some row)
    (hc : c < row.length)
    (hgl : m.grid.length + 5 < USIZE)
    (hrl : row.length < USIZE) :
    handle_keyboard_input d sk (.char 'j') m =
      some { m with state := .Navigating (min (r + 1) (m.grid.length - 1)) c } ∧
    handle_keyboard_input d sk (.char 'k') m =
      some { m with state := .Navigating (r - 1) c } ∧
    handle_keyboard_input d sk (.char 'h') m =
      some { m with state := .Navigating r (c - 1) } ∧
    handle_keyboard_input d sk (.char 'l') m =
      some { m with state := .Navigating r (min (c + 1) (row.length - 1)) } ∧
    handle_keyboard_input d sk (.char '}') m =
      some { m with state := .Navigating (min (r + 5) (m.grid.length - 1)) c } ∧
    handle_keyboard_input d sk (.char '{') m =
      some { m with state := .Navigating (r - 5) c } := by
  have hr : r < m.grid.length := (List.getElem?_eq_some.mp hrow).1
  have hw1 : wSub m.grid.length 1 = m.grid.length - 1 :=
    wSub_one _ (by omega) (by omega)
  have hwr : wSub row.length 1 = row.length - 1 :=
    wSub_one _ (by omega) (by omega)
  refine ⟨?_, ?_, ?_, ?_, ?_, ?_⟩
  · rw [handle_nav_char d sk r c 'j' m hs, navChar_j, hw1]
    by_cases h2 : r < m.grid.length - 1
    · rw [if_pos h2, wAdd_eq r 1 (by omega)]
      have hm : min (r + 1) (m.grid.length - 1) = r + 1 := by omega
      rw [hm]
    · rw [if_neg h2]
      have hm : min (r + 1) (m.grid.length - 1) = r := by omega
      rw [hm, set_state_self m _ hs]
  · rw [handle_nav_char d sk r c 'k' m hs, navChar_k]
    by_cases h2 : 0 < r
    · rw [if_pos h2]
    · rw [if_neg h2]
      have hm : r - 1 = r := by omega
      rw [hm, set_state_self m _ hs]
  · rw [handle_nav_char d sk r c 'h' m hs, navChar_h]
    by_cases h2 : 0 < c
    · rw [if_pos h2]
    · rw [if_neg h2]
      have hm : c - 1 = c := by omega
      rw [hm, set_state_self m _ hs]
  · rw [handle_nav_char d sk r c 'l' m hs, navChar_l, hrow, Option.map_some',
      hwr]
    by_cases h2 : c < row.length - 1
    · rw [if_pos h2, wAdd_eq c 1 (by omega)]
      have hm : min (c + 1) (row.length - 1) = c + 1 := by omega
      rw [hm]
    · rw [if_neg h2]
      have hm : min (c + 1) (row.length - 1) = c := by omega
      rw [hm, set_state_self m _ hs]
  · rw [handle_nav_char d sk r c '}' m hs, navChar_pgdn, hw1,
      wAdd_eq r 5 (by omega), Nat.min_comm]
  · rw [handle_nav_char d sk r c '{' m hs, navChar_pgup]
    by_cases h2 : 5 ≤ r
    · rw [if_pos h2]
    · rw [if_neg h2]
      have hm : r - 5 = 0 := by omega
      rw [hm]

/-- C9 (witness): the navigation theorem applied to a concrete 2 by 2
document with the cursor at the origin; moving down lands on row 1. -/
theorem c9_navigation_clamped_witness :
    handle_keyboard_input "2024-01-01" true (.char 'j')
        ⟨"f", ["a", "b"], [["1", "2"], ["3", "4"]], .Navigating 0 0, true,
          [], none, []⟩ =
      some ⟨"f", ["a", "b"], [["1", "2"], ["3", "4"]], .Navigating 1 0, true,
        [], none, []⟩ :=
  (c9_navigation_clamped "2024-01-01" true
      ⟨"f", ["a", "b"], [["1", "2"], ["3", "4"]], .Navigating 0 0, true,
        [], none, []⟩
      0 0 ["1", "2"] rfl rfl (by decide) (by decide) (by decide)).1

/-! Clipboard helper lemmas. -/

theorem restore_buffer_eq (m : CSVModel) :
    (restore_last_state m).copy_buffer = m.copy_buffer := by
  obtain ⟨fp, hd, gr, st, run, ws, cb, wr⟩ := m
  unfold restore_last_state
  cases ws with
  | nil => rfl
  | cons p rest =>
    obtain ⟨hh, gg⟩ := p
    dsimp only
    split <;> rfl

theorem paste_buffer_frame (m m' : CSVModel)
    (h : paste_from_buffer m = some m') :
    m'.copy_buffer = m.copy_buffer := by
  obtain ⟨fp, hd, gr, st, run, ws, cb, wr⟩ := m
  cases st with
  | Navigating r c =>
    cases cb with
    | none =>
      obtain rfl := Option.some.inj h
      rfl
    | some v =>
      simp only [paste_from_buffer, Option.map_eq_some'] at h
      obtain ⟨g, _, rfl⟩ := h
      rfl
  | Editing r c =>
    obtain rfl := Option.some.inj h
    rfl
  | EditingHeader c =>
    obtain rfl := Option.some.inj h
    rfl

theorem pasteDate_buffer_frame (tdy : String) (m m' : CSVModel)
    (h : paste_date tdy m = some m') :
    m'.copy_buffer = m.copy_buffer := by
  obtain ⟨fp, hd, gr, st, run, ws, cb, wr⟩ := m
  cases st with
  | Navigating r c =>
    simp only [paste_date, Option.map_eq_some'] at h
    obtain ⟨g, _, rfl⟩ := h
    rfl
  | Editing r c =>
    obtain rfl := Option.some.inj h
    rfl
  | EditingHeader c =>
    obtain rfl := Option.some.inj h
    rfl

theorem buffer_frame (d : String) (sk : Bool) (k : Key) (m m' : CSVModel)
    (hk : k ≠ Key.char 'y')
    (h : handle_keyboard_input d sk k m = some m') :
    m'.copy_buffer = m.copy_buffer := by
  cases k with
  | other =>
    cases hstate : m.state with
    | Navigating r c =>
      obtain ⟨fp, hd, gr, st, run, ws, cb, wr⟩ := m
      cases hstate
      obtain rfl := Option.some.inj h
      rfl
    | Editing r c =>
      rw [handle_edit_eq d sk r c _ m hstate] at h
      obtain rfl := Option.some.inj h
      rfl
    | EditingHeader c =>
      rw [handle_header_eq d sk c _ m hstate] at h
      obtain rfl := Option.some.inj h
      rfl
  | enter =>
    cases hstate : m.state with
    | Navigating r c =>
      rw [handle_nav_enter d sk r c m hstate] at h
      obtain rfl := Option.some.inj h
      rfl
    | Editing r c =>
      rw [handle_edit_eq d sk r c _ m hstate] at h
      obtain rfl := Option.some.inj h
      rfl
    | EditingHeader c =>
      rw [handle_header_eq d sk c _ m hstate] at h
      obtain rfl := Option.some.inj h
      rfl
  | backspace =>
    cases hstate : m.state with
    | Navigating r c =>
      obtain ⟨fp, hd, gr, st, run, ws, cb, wr⟩ := m
      cases hstate
      obtain rfl := Option.some.inj h
      rfl
    | Editing r c =>
      rw [handle_edit_eq d sk r c _ m hstate] at h
      simp only [editStep, Option.map_eq_some'] at h
      obtain ⟨g, _, rfl⟩ := h
      rfl
    | EditingHeader c =>
      rw [handle_header_eq d sk c _ m hstate] at h
      simp only [headerStep, Option.map_eq_some'] at h
      obtain ⟨s, _, rfl⟩ := h
      rfl
  | char ch =>
    have hch : ch ≠ 'y' := fun he => hk (by rw [he])
    cases hstate : m.state with
    | Editing r c =>
      rw [handle_edit_eq d sk r c _ m hstate] at h
      simp only [editStep, Option.map_eq_some'] at h
      obtain ⟨g, _, rfl⟩ := h
      rfl
    | EditingHeader c =>
      rw [handle_header_eq d sk c _ m hstate] at h
      simp only [headerStep, Option.map_eq_some'] at h
      obtain ⟨s, _, rfl⟩ := h
      rfl
    | Navigating r c =>
      rw [handle_nav_char d sk r c ch m hstate] at h
      by_cases h1 : ch = 'j'
      · subst h1
        rw [navChar_j] at h
        obtain rfl := Option.some.inj h
        split <;> rfl
      by_cases h2 : ch = 'k'
      · subst h2
        rw [navChar_k] at h
        obtain rfl := Option.some.inj h
        split <;> rfl
      by_cases h3 : ch = 'h'
      · subst h3
        rw [navChar_h] at h
        obtain rfl := Option.some.inj h
        split <;> rfl
      by_cases h4 : ch = 'l'
      · subst h4
        rw [navChar_l] at h
        simp only [Option.map_eq_some'] at h
        obtain ⟨row, _, rfl⟩ := h
        split <;> rfl
      by_cases h5 : ch = '}'
      · subst h5
        rw [navChar_pgdn] at h
        obtain rfl := Option.some.inj h
        rfl
      by_cases h6 : ch = '{'
      · subst h6
        rw [navChar_pgup] at h
        obtain rfl := Option.some.inj h
        split <;> rfl
      by_cases h7 : ch = 'g'
      · subst h7
        rw [navChar_g] at h
        obtain rfl := Option.some.inj h
        rfl
      by_cases h8 : ch = 'G'
      · subst h8
        rw [navChar_G] at h
        obtain rfl := Option.some.inj h
        rfl
      by_cases h9 : ch = 'I'
      · subst h9
        rw [navChar_I] at h
        obtain rfl := Option.some.inj h
        rfl
      by_cases h10 : ch = 'A'
      · subst h10
        rw [navChar_A] at h
        obtain rfl := Option.some.inj h
        rfl
      by_cases h11 : ch = 'u'
      · subst h11
        rw [navChar_u] at h
        obtain rfl := Option.some.inj h
        exact restore_buffer_eq m
      by_cases h12 : ch = 'o'
      · subst h12
        rw [navChar_o, insert_empty_row_after] at h
        simp only [Option.map_map, Option.map_eq_some'] at h
        obtain ⟨g, _, rfl⟩ := h
        rfl
      by_cases h13 : ch = 'O'
      · subst h13
        rw [navChar_O, insert_empty_row_before] at h
        simp only [Option.map_map, Option.map_eq_some'] at h
        obtain ⟨g, _, rfl⟩ := h
        rfl
      by_cases h14 : ch = 'd'
      · subst h14
        rw [navChar_d, delete_row] at h
        simp only [Option.map_map, Option.map_eq_some'] at h
        obtain ⟨g, _, rfl⟩ := h
        simp only [Function.comp_apply]
        split <;> rfl
      by_cases h15 : ch = 'n'
      · subst h15
        rw [navChar_n, insert_empty_col_after] at h
        simp only [Option.map_eq_some', Option.bind_eq_some] at h
        obtain ⟨m1, ⟨a, _, g, _, rfl⟩, rfl⟩ := h
        rfl
      by_cases h16 : ch = 'N'
      · subst h16
        rw [navChar_N, insert_empty_col_before] at h
        simp only [Option.map_eq_some', Option.bind_eq_some] at h
        obtain ⟨m1, ⟨a, _, g, _, rfl⟩, rfl⟩ := h
        rfl
      by_cases h17 : ch = 'D'
      · subst h17
        rw [navChar_D, delete_col] at h
        simp only [Option.map_eq_some', Option.bind_eq_some] at h
        obtain ⟨m1, ⟨a, _, g, _, rfl⟩, rfl⟩ := h
        split <;> rfl
      by_cases h18 : ch = 'i'
      · subst h18
        rw [navChar_i] at h
        obtain rfl := Option.some.inj h
        rfl
      by_cases h19 : ch = 'r'
      · subst h19
        rw [navChar_r] at h
        simp only [Option.map_eq_some'] at h
        obtain ⟨g, _, rfl⟩ := h
        rfl
      by_cases h20 : ch = 'H'
      · subst h20
        rw [navChar_H] at h
        obtain rfl := Option.some.inj h
        rfl
      by_cases h21 : ch = 'y'
      · exact absurd h21 hch
      by_cases h22 : ch = 'p'
      · subst h22
        rw [navChar_p] at h
        exact paste_buffer_frame (save_current_state m) m' h
      by_cases h23 : ch = '.'
      · subst h23
        rw [navChar_dot] at h
        exact pasteDate_buffer_frame d m m' h
      by_cases h24 : ch = 'q'
      · subst h24
        rw [navChar_q] at h
        split at h
        · obtain rfl := Option.some.inj h
          rfl
        · exact absurd h (by simp)
      unfold navChar at h
      rw [if_neg h1, if_neg h2, if_neg h3, if_neg h4, if_neg h5, if_neg h6,
        if_neg h7, if_neg h8, if_neg h9, if_neg h10, if_neg h11, if_neg h12,
        if_neg h13, if_neg h14, if_neg h15, if_neg h16, if_neg h17,
        if_neg h18, if_neg h19, if_neg h20, if_neg h21, if_neg h22,
        if_neg h23, if_neg h24] at h
      obtain rfl := Option.some.inj h
      rfl

theorem getCell_set_outside (g : List (List String)) (row : List String)
    (r c r2 c2 : Nat) (hrow : g[r]? = some row) (x : String)
    (hne : ¬(r2 = r ∧ c2 = c)) :
    getCell (g.set r (row.set c x)) r2 c2 = getCell g r2 c2 := by
  have hr : r < g.length := (List.getElem?_eq_some.mp hrow).1
  by_cases hr2 : r2 = r
  · subst hr2
    have hc2 : c ≠ c2 := fun hcc => hne ⟨rfl, hcc.symm⟩
    unfold getCell
    rw [List.getElem?_set_eq_of_lt _ hr, hrow, Option.some_bind,
      Option.some_bind]
    exact List.getElem?_set_ne hc2
  · unfold getCell
    rw [List.getElem?_set_ne (fun he => hr2 he.symm)]

theorem setCell_getCell (g : List (List String)) (r c : Nat) (v : String)
    (g2 : List (List String)) (h : setCell g r c v = some g2) :
    getCell g2 r c = some v := by
  unfold setCell at h
  cases hrow : g[r]? with
  | none =>
    rw [hrow] at h
    exact absurd h (by simp)
  | some row =>
    rw [hrow, Option.some_bind] at h
    split at h
    · next hcl =>
      obtain rfl := Option.some.inj h
      have hr : r < g.length := (List.getElem?_eq_some.mp hrow).1
      unfold getCell
      rw [List.getElem?_set_eq_of_lt _ hr, Option.some_bind]
      exact List.getElem?_set_eq_of_lt _ hcl
    · exact absurd h (by simp)

theorem edit_locality (d : String) (sk : Bool) (r c : Nat) (k : Key)
    (m m' : CSVModel) (hs : m.state = .Editing r c)
    (h : handle_keyboard_input d sk k m = some m') :
    ∀ r2 c2, ¬(r2 = r ∧ c2 = c) →
      getCell m'.grid r2 c2 = getCell m.grid r2 c2 := by
  intro r2 c2 hne
  rw [handle_edit_eq d sk r c k m hs] at h
  cases k with
  | enter =>
    obtain rfl := Option.some.inj h
    rfl
  | other =>
    obtain rfl := Option.some.inj h
    rfl
  | backspace =>
    simp only [editStep, modifyCell, Option.bind_eq_some,
      Option.map_eq_some'] at h
    obtain ⟨g, ⟨row, hrow, s, hsv, rfl⟩, rfl⟩ := h
    exact getCell_set_outside m.grid row r c r2 c2 hrow _ hne
  | char c0 =>
    simp only [editStep, modifyCell, Option.bind_eq_some,
      Option.map_eq_some'] at h
    obtain ⟨g, ⟨row, hrow, s, hsv, rfl⟩, rfl⟩ := h
    exact getCell_set_outside m.grid row r c r2 c2 hrow _ hne

/-- C7: the clipboard is a by-value single slot.  Copy overwrites only the
slot with the current cell value; no dispatch other than the copy key
changes the slot (so later mutation of the copied cell never changes it,
and paste never clears it); paste with a full slot pushes a snapshot and
writes exactly the slot value into the current cell, which then reads back
as that value; paste with an empty slot leaves the document unchanged (it
only pushes a snapshot); and an edit keystroke changes no cell other than
the one under the edit cursor, so a paste target is never changed by later
edits of the copy source. -/
theorem c7_clipboard_by_value (d : String) (sk : Bool) :
    (∀ (m : CSVModel) (r c : Nat) (v : String), m.state = .Navigating r c →
      getCell m.grid r c = some v →
      handle_keyboard_input d sk (.char 'y') m =
        some { m with copy_buffer := some v }) ∧
    (∀ (k : Key) (m m' : CSVModel), k ≠ Key.char 'y' →
      handle_keyboard_input d sk k m = some m' →
      m'.copy_buffer = m.copy_buffer) ∧
    (∀ (m : CSVModel) (r c : Nat) (v : String) (g : List (List String)),
      m.state = .Navigating r c → m.copy_buffer = some v →
      setCell m.grid r c v = some g →
      handle_keyboard_input d sk (.char 'p') m =
        some { m with
                working_states := (m.headers, m.grid) :: m.working_states,
                grid := g }) ∧
    (∀ (g : List (List String)) (r c : Nat) (v : String)
        (g2 : List (List String)), setCell g r c v = some g2 →
      getCell g2 r c = some v) ∧
    (∀ (m : CSVModel) (r c : Nat), m.state = .Navigating r c →
      m.copy_buffer = none →
      handle_keyboard_input d sk (.char 'p') m =
        some { m with
                working_states := (m.headers, m.grid) :: m.working_states }) ∧
    (∀ (m m' : CSVModel) (r c : Nat) (k : Key), m.state = .Editing r c →
      handle_keyboard_input d sk k m = some m' →
      ∀ r2 c2, ¬(r2 = r ∧ c2 = c) →
        getCell m'.grid r2 c2 = getCell m.grid r2 c2) := by
  refine ⟨?_, ?_, ?_, setCell_getCell, ?_, ?_⟩
  · intro m r c v hs hv
    rw [handle_nav_char d sk r c 'y' m hs, navChar_y]
    obtain ⟨fp, hd, gr, st, run, ws, cb, wr⟩ := m
    cases hs
    simp only [copy_selected_cell_to_buffer] at hv ⊢
    rw [hv, Option.map_some']
  · intro k m m' hk h
    exact buffer_frame d sk k m m' hk h
  · intro m r c v g hs hcb hset
    rw [handle_nav_char d sk r c 'p' m hs, navChar_p]
    obtain ⟨fp, hd, gr, st, run, ws, cb, wr⟩ := m
    cases hs
    subst hcb
    simp only [paste_from_buffer, save_current_state] at hset ⊢
    rw [hset, Option.map_some']
  · intro m r c hs hcb
    rw [handle_nav_char d sk r c 'p' m hs, navChar_p]
    obtain ⟨fp, hd, gr, st, run, ws, cb, wr⟩ := m
    cases hs
    subst hcb
    rfl
  · intro m m' r c k hs h
    exact edit_locality d sk r c k m m' hs h

/-- C7 (witness): the clipboard theorem applied to the scenario of the
specification: copying cell (0,0) holding the string Alice on a concrete
2 by 2 document stores exactly that value in the slot. -/
theorem c7_clipboard_by_value_witness :
    handle_keyboard_input "2024-01-01" true (.char 'y')
        ⟨"f", ["a", "b"], [["Alice", "30"], ["Bob", "25"]], .Navigating 0 0,
          true, [], none, []⟩ =
      some ⟨"f", ["a", "b"], [["Alice", "30"], ["Bob", "25"]],
        .Navigating 0 0, true, [], some "Alice", []⟩ :=
  (c7_clipboard_by_value "2024-01-01" true).1
    ⟨"f", ["a", "b"], [["Alice", "30"], ["Bob", "25"]], .Navigating 0 0,
      true, [], none, []⟩ 0 0 "Alice" rfl rfl

/-! Length lemmas for the checked list operations. -/

theorem insertChecked_length {α : Type} (i : Nat) (a : α) (l l2 : List α)
    (h : insertChecked i a l = some l2) : l2.length = l.length + 1 := by
  unfold insertChecked at h
  split at h
  · next hle =>
    obtain rfl := Option.some.inj h
    exact List.length_insertIdx _ _ hle
  · exact absurd h (by simp)

theorem removeChecked_length {α : Type} (i : Nat) (l l2 : List α)
    (h : removeChecked i l = some l2) : l2.length = l.length - 1 := by
  unfold removeChecked at h
  split at h
  · next hlt =>
    obtain rfl := Option.some.inj h
    rw [List.length_eraseIdx]
    simp [hlt]
  · exact absurd h (by simp)

theorem mapM_insertChecked_uniform (i : Nat) (L : Nat) :
    ∀ (rows rows2 : List (List String)),
      rows.mapM (insertChecked i ("" : String)) = some rows2 →
      (∀ row ∈ rows, row.length = L) →
      ∀ row ∈ rows2, row.length = L + 1 := by
  intro rows
  induction rows with
  | nil =>
    intro rows2 h _
    simp only [List.mapM_nil, Option.pure_def, Option.some.injEq] at h
    subst h
    intro row hrow
    simp at hrow
  | cons x xs ih =>
    intro rows2 h hall
    rw [List.mapM_cons] at h
    simp only [Option.pure_def, Option.bind_eq_bind, Option.bind_eq_some,
      Option.some.injEq] at h
    obtain ⟨y, hy, ys, hys, rfl⟩ := h
    intro row hrow
    rcases List.mem_cons.mp hrow with rfl | hmem
    · rw [insertChecked_length i "" x row hy, hall x (by simp)]
    · exact ih ys hys (fun s hs2 => hall s (by simp [hs2])) row hmem

theorem mapM_removeChecked_uniform (i : Nat) (L : Nat) :
    ∀ (rows rows2 : List (List String)),
      rows.mapM (removeChecked i) = some rows2 →
      (∀ row ∈ rows, row.length = L) →
      ∀ row ∈ rows2, row.length = L - 1 := by
  intro rows
  induction rows with
  | nil =>
    intro rows2 h _
    simp only [List.mapM_nil, Option.pure_def, Option.some.injEq] at h
    subst h
    intro row hrow
    simp at hrow
  | cons x xs ih =>
    intro rows2 h hall
    rw [List.mapM_cons] at h
    simp only [Option.pure_def, Option.bind_eq_bind, Option.bind_eq_some,
      Option.some.injEq] at h
    obtain ⟨y, hy, ys, hys, rfl⟩ := h
    intro row hrow
    rcases List.mem_cons.mp hrow with rfl | hmem
    · rw [removeChecked_length i x row hy, hall x (by simp)]
    · exact ih ys hys (fun s hs2 => hall s (by simp [hs2])) row hmem

theorem applyColOp_uniform (op : ColOp) (m m2 : CSVModel)
    (hu : uniformB m = true) (h : applyColOp op m = some m2) :
    uniformB m2 = true := by
  have hu2 : ∀ row ∈ m.grid, row.length = m.headers.length := by
    intro row hr
    have hb := List.all_eq_true.mp hu row hr
    simpa using hb
  cases op with
  | insertAfter i =>
    simp only [applyColOp, insert_empty_col_after, save_current_state,
      Option.bind_eq_some, Option.map_eq_some'] at h
    obtain ⟨hs2, hhs, g, hg, rfl⟩ := h
    have hlh := insertChecked_length _ _ _ _ hhs
    have hg2 := mapM_insertChecked_uniform (wAdd i 1) m.headers.length
      m.grid g hg hu2
    rw [uniformB, List.all_eq_true]
    intro row hrow
    simp [hg2 row hrow, hlh]
  | insertBefore i =>
    simp only [applyColOp, insert_empty_col_before, save_current_state,
      Option.bind_eq_some, Option.map_eq_some'] at h
    obtain ⟨hs2, hhs, g, hg, rfl⟩ := h
    have hlh := insertChecked_length _ _ _ _ hhs
    have hg2 := mapM_insertChecked_uniform i m.headers.length m.grid g hg hu2
    rw [uniformB, List.all_eq_true]
    intro row hrow
    simp [hg2 row hrow, hlh]
  | delete i =>
    simp only [applyColOp, delete_col, save_current_state,
      Option.bind_eq_some, Option.map_eq_some'] at h
    obtain ⟨hs2, hhs, g, hg, rfl⟩ := h
    have hlh := removeChecked_length _ _ _ hhs
    have hg2 := mapM_removeChecked_uniform i m.headers.length m.grid g hg hu2
    rw [uniformB, List.all_eq_true]
    intro row hrow
    simp [hg2 row hrow, hlh]

theorem applyColOps_uniform (ops : List ColOp) :
    ∀ (m m2 : CSVModel), uniformB m = true →
      applyColOps ops m = some m2 → uniformB m2 = true := by
  induction ops with
  | nil =>
    intro m m2 hu h
    obtain rfl := Option.some.inj h
    exact hu
  | cons op ops ih =>
    intro m m2 hu h
    have hrun : (applyColOp op m).bind (applyColOps ops) = some m2 := h
    rw [Option.bind_eq_some] at hrun
    obtain ⟨m1, h1, h2⟩ := hrun
    exact ih m1 m2 (applyColOp_uniform op m m1 hu h1) h2

theorem applyColOps_append (l1 l2 : List ColOp) (m : CSVModel) :
    applyColOps (l1 ++ l2) m = (applyColOps l1 m).bind (applyColOps l2) := by
  induction l1 generalizing m with
  | nil => simp [applyColOps]
  | cons op ops ih =>
    have e1 : applyColOps ((op :: ops) ++ l2) m =
        (applyColOp op m).bind (applyColOps (ops ++ l2)) := rfl
    have e2 : applyColOps (op :: ops) m =
        (applyColOp op m).bind (applyColOps ops) := rfl
    rw [e1, e2]
    cases hop : applyColOp op m with
    | none => rfl
    | some m1 => exact ih m1

/-- C6: starting from a document in which every row is exactly as long as
the header row, any sequence of column insert and delete operations that
runs without a panic (equivalently, whose indices are in bounds when
applied) keeps the header length equal to every row length, and it does so
after every prefix of the sequence: headers and rows change together in
each step. -/
theorem c6_column_ops_keep_uniform_width (ops : List ColOp)
    (m m' : CSVModel) (hu : uniformB m = true)
    (h : applyColOps ops m = some m') :
    uniformB m' = true ∧
    ∀ pre suf, ops = pre ++ suf →
      (applyColOps pre m).map uniformB = some true := by
  refine ⟨applyColOps_uniform ops m m' hu h, ?_⟩
  intro pre suf hsplit
  subst hsplit
  rw [applyColOps_append] at h
  cases hpre : applyColOps pre m with
  | none =>
    rw [hpre] at h
    exact absurd h (by simp)
  | some mid =>
    rw [Option.map_some', applyColOps_uniform pre m mid hu hpre]

/-- C6 (witness): inserting a column after index 0 on a concrete two-row,
one-column document keeps every row as long as the headers. -/
theorem c6_column_ops_keep_uniform_width_witness :
    uniformB ⟨"f", ["a", ""], [["x", ""], ["y", ""]], .Navigating 0 0, true,
      [(["a"], [["x"], ["y"]])], none, []⟩ = true :=
  (c6_column_ops_keep_uniform_width [ColOp.insertAfter 0]
    ⟨"f", ["a"], [["x"], ["y"]], .Navigating 0 0, true, [], none, []⟩
    ⟨"f", ["a", ""], [["x", ""], ["y", ""]], .Navigating 0 0, true,
      [(["a"], [["x"], ["y"]])], none, []⟩ rfl rfl).1
